import Mathlib

/-!
Shallow embedding of `src/moonworm/crawler/function_call_crawler.py`.

Modelling conventions:
* Python `int` is `Int` (block numbers may be `-1`, timestamps are ints).
* `Dict[str, Any]` function arguments are modelled as an association list
  `List (String × String)` with opaque string values.
* The pickle file on disk is modelled as `Option StoreState`: `none` means the
  path does not exist, `some blob` is the deserialized content of the file.
  All operations that touch the file take the current file content and return
  the new one.
* `contract.decode_function_input` (built from the ABI in
  `FunctionCallCrawler.__init__`) is modelled as a function
  `String → Option (String × List (String × String))`; `none` models a raised
  `DecodeError` (no `try/except` appears anywhere in the crawler source, so a
  raised error propagates).  Control flow after a raise is modelled by a
  `Bool` "raised" component threaded through the loops: once `true`,
  processing stops and no further state mutation happens, matching a Python
  exception unwinding out of `crawl`.
-/

/-- `ContractFunctionCall` dataclass: one decoded call record. -/
structure ContractFunctionCall where
  block_number : Int
  block_timestamp : Int
  transaction_hash : String
  contract_address : String
  caller_address : String
  function_name : String
  function_args : List (String × String)
deriving DecidableEq, Repr, Inhabited

/-- The dictionary persisted by `PickleFileState`:
`{"last_crawled_block": ..., "calls": [...]}`. -/
structure StoreState where
  last_crawled_block : Int
  calls : List ContractFunctionCall
deriving DecidableEq, Repr, Inhabited

/-- In-memory fields of a `PickleFileState` instance. -/
structure PickleFileState where
  state : StoreState
  pickle_file : String
  batch_size : Nat
  cache_size : Nat
deriving DecidableEq, Repr

/-- `PickleFileState.__init__(pickle_file, batch_size=100)`.  Takes the current
content of the backing file (`none` when the path does not exist); returns the
constructed store and the file content after construction.  When the path does
not exist the initial `{last_crawled_block: -1, calls: []}` blob is written
immediately; otherwise the existing blob is loaded. -/
def PickleFileState.init (file : Option StoreState) (pickle_file : String)
    (batch_size : Nat := 100) : PickleFileState × Option StoreState :=
  let initial_state : StoreState := { last_crawled_block := -1, calls := [] }
  match file with
  | none =>
    ({ state := initial_state, pickle_file := pickle_file,
       batch_size := batch_size, cache_size := 0 }, some initial_state)
  | some loaded =>
    ({ state := loaded, pickle_file := pickle_file,
       batch_size := batch_size, cache_size := 0 }, some loaded)

/-- `PickleFileState.get_last_crawled_block`. -/
def PickleFileState.get_last_crawled_block (s : PickleFileState) : Int :=
  s.state.last_crawled_block

/-- `PickleFileState.flush`: `pickle.dump(self.state, ofp)` then
`self.cache_size = 0`.  Returns the store after the flush and the new file
content. -/
def PickleFileState.flush (s : PickleFileState) (_file : Option StoreState) :
    PickleFileState × Option StoreState :=
  ({ s with cache_size := 0 }, some s.state)

/-- `PickleFileState.flush` with fault injection: `write_ok = false` models
`pickle.dump` raising a storage error.  The exception propagates before
`self.cache_size = 0` runs, so the in-memory object and the file are exactly
as before; the returned `Bool` records whether the flush completed. -/
def PickleFileState.flushAttempt (s : PickleFileState) (file : Option StoreState)
    (write_ok : Bool) : PickleFileState × Option StoreState × Bool :=
  if write_ok then
    let t := s.flush file
    (t.1, t.2, true)
  else
    (s, file, false)

/-- `PickleFileState.register_call`: appends `asdict(function_call)` to
`state["calls"]`, increments `cache_size`, sets `state["last_crawled_block"]`
to the call's block number, and flushes when `cache_size == batch_size`.
The `Nat` component counts the internal flushes performed (0 or 1). -/
def PickleFileState.register_call (s : PickleFileState)
    (file : Option StoreState) (function_call : ContractFunctionCall) :
    PickleFileState × Option StoreState × Nat :=
  let s1 : PickleFileState :=
    { s with
      state := { last_crawled_block := function_call.block_number,
                 calls := s.state.calls ++ [function_call] },
      cache_size := s.cache_size + 1 }
  if s1.cache_size = s1.batch_size then
    let t := s1.flush file
    (t.1, t.2, 1)
  else
    (s1, file, 0)

/-- One transaction record, with the fields of the web3 transaction dict the
crawler reads: `data`, `block_number`, `hash`, `to`, `from`. -/
structure Transaction where
  data : String
  block_number : Int
  hash : String
  toAddress : String
  fromAddress : String
deriving DecidableEq, Repr, Inhabited

/-- `EthereumStateProvider` capability: the three read operations the crawler
uses.  A concrete provider is a value of this structure. -/
structure EthereumStateProvider where
  get_last_block_number : Int
  get_block_timestamp : Int → Int
  get_transactions_to_address : String → Int → List Transaction

/-- `FunctionCallCrawler.__init__`: the contract ABI only matters through
`self.contract.decode_function_input`, modelled by the
`decode_function_input` field (`none` = raised `DecodeError`). -/
structure FunctionCallCrawler where
  ethereum_state_provider : EthereumStateProvider
  contract_addresses : List String
  decode_function_input : String → Option (String × List (String × String))

/-- The `ContractFunctionCall` built by `process_transaction` for a
transaction whose payload decodes, `none` when decoding raises. -/
def FunctionCallCrawler.decodedCall (c : FunctionCallCrawler)
    (transaction : Transaction) : Option ContractFunctionCall :=
  match c.decode_function_input transaction.data with
  | none => none
  | some (function_name, function_args) =>
    some
      { block_number := transaction.block_number,
        block_timestamp :=
          c.ethereum_state_provider.get_block_timestamp transaction.block_number,
        transaction_hash := transaction.hash,
        contract_address := transaction.toAddress,
        caller_address := transaction.fromAddress,
        function_name := function_name,
        function_args := function_args }

/-- `FunctionCallCrawler.process_transaction`: decode (a failure raises, i.e.
sets the raised flag with no state change) and register the call. -/
def FunctionCallCrawler.process_transaction (c : FunctionCallCrawler)
    (s : PickleFileState) (file : Option StoreState)
    (transaction : Transaction) : PickleFileState × Option StoreState × Bool :=
  match c.decodedCall transaction with
  | none => (s, file, true)
  | some function_call =>
    let t := s.register_call file function_call
    (t.1, t.2.1, false)

/-- The inner `for transaction in transactions` loop of `crawl`. -/
def FunctionCallCrawler.processTxList (c : FunctionCallCrawler)
    (transactions : List Transaction) (s : PickleFileState)
    (file : Option StoreState) : PickleFileState × Option StoreState × Bool :=
  match transactions with
  | [] => (s, file, false)
  | transaction :: rest =>
    let t := c.process_transaction s file transaction
    if t.2.2 then (t.1, t.2.1, true) else c.processTxList rest t.1 t.2.1

/-- The `for address in self.contract_addresses` loop of `crawl`. -/
def FunctionCallCrawler.processAddresses (c : FunctionCallCrawler)
    (addresses : List String) (block_number : Int) (s : PickleFileState)
    (file : Option StoreState) : PickleFileState × Option StoreState × Bool :=
  match addresses with
  | [] => (s, file, false)
  | address :: rest =>
    let t :=
      c.processTxList
        (c.ethereum_state_provider.get_transactions_to_address address
          block_number) s file
    if t.2.2 then (t.1, t.2.1, true)
    else c.processAddresses rest block_number t.1 t.2.1

/-- `range(from_block, to_block + 1)` as a list of block numbers. -/
def blockRange (from_block to_block : Int) : List Int :=
  (List.range (to_block + 1 - from_block).toNat).map
    (fun i : Nat => from_block + (i : Int))

/-- The outer `for block_number in range(from_block, to_block + 1)` loop. -/
def FunctionCallCrawler.crawlBlocks (c : FunctionCallCrawler)
    (blocks : List Int) (s : PickleFileState) (file : Option StoreState) :
    PickleFileState × Option StoreState × Bool :=
  match blocks with
  | [] => (s, file, false)
  | b :: rest =>
    let t := c.processAddresses c.contract_addresses b s file
    if t.2.2 then (t.1, t.2.1, true) else c.crawlBlocks rest t.1 t.2.1

/-- `FunctionCallCrawler.crawl(from_block, to_block, flush_state=False)`.
A raised `DecodeError` propagates, skipping the final flush. -/
def FunctionCallCrawler.crawl (c : FunctionCallCrawler) (s : PickleFileState)
    (file : Option StoreState) (from_block to_block : Int)
    (flush_state : Bool := false) : PickleFileState × Option StoreState × Bool :=
  let t := c.crawlBlocks (blockRange from_block to_block) s file
  if t.2.2 then (t.1, t.2.1, true)
  else if flush_state then
    let u := t.1.flush t.2.1
    (u.1, u.2, false)
  else (t.1, t.2.1, false)

/-! Specification-side derived notions, used to state the claims.  They are
defined from the same embedded crawler so that the theorems relate the loop
implementation to a direct description of its visit order. -/

/-- All transactions the crawler visits in one block, in visit order:
watched addresses in list order, within an address in reader order. -/
def FunctionCallCrawler.blockTransactions (c : FunctionCallCrawler)
    (block_number : Int) : List Transaction :=
  c.contract_addresses.flatMap
    (fun address =>
      c.ethereum_state_provider.get_transactions_to_address address
        block_number)

/-- All transactions visited over an inclusive block range, in visit order:
blocks ascending, then per-block order. -/
def FunctionCallCrawler.rangeTransactions (c : FunctionCallCrawler)
    (from_block to_block : Int) : List Transaction :=
  (blockRange from_block to_block).flatMap c.blockTransactions

/-- Pure model of processing a transaction list: the decoded records of the
longest decodable prefix, and whether a `DecodeError` was raised. -/
def FunctionCallCrawler.runTxs (c : FunctionCallCrawler)
    (transactions : List Transaction) : List ContractFunctionCall × Bool :=
  match transactions with
  | [] => ([], false)
  | transaction :: rest =>
    match c.decodedCall transaction with
    | none => ([], true)
    | some call =>
      let t := c.runTxs rest
      (call :: t.1, t.2)

/-- Fold of `register_call` over a list of calls; the `Nat` component is the
total number of internal flushes triggered. -/
def registerAll (s : PickleFileState) (file : Option StoreState)
    (calls : List ContractFunctionCall) :
    PickleFileState × Option StoreState × Nat :=
  match calls with
  | [] => (s, file, 0)
  | call :: rest =>
    let t := s.register_call file call
    let u := registerAll t.1 t.2.1 rest
    (u.1, u.2.1, t.2.2 + u.2.2)

/-- The cursor value observed after each successive `register_call`. -/
def cursorTrace (s : PickleFileState) (file : Option StoreState)
    (calls : List ContractFunctionCall) : List Int :=
  match calls with
  | [] => []
  | call :: rest =>
    let t := s.register_call file call
    t.1.state.last_crawled_block :: cursorTrace t.1 t.2.1 rest

/-- The decoded records in spec visit order: blocks ascending over the range,
within a block the watched addresses in configured list order, within a
(block, address) pair the reader's transaction order; undecodable
transactions contribute nothing. -/
def FunctionCallCrawler.visitOrderCalls (c : FunctionCallCrawler)
    (from_block to_block : Int) : List ContractFunctionCall :=
  (blockRange from_block to_block).flatMap fun block_number =>
    c.contract_addresses.flatMap fun address =>
      (c.ethereum_state_provider.get_transactions_to_address address
        block_number).filterMap c.decodedCall

/-! Concrete instances used to evaluate the theorems on explicit inputs. -/

/-- A transaction in block 100 calling `transfer` on the watched contract. -/
def txTransfer : Transaction :=
  { data := "0xa9059cbb", block_number := 100, hash := "0xh1",
    toAddress := "0xAAA", fromAddress := "0xBBB" }

/-- A chain whose only relevant transaction is `txTransfer` in block 100. -/
def providerA : EthereumStateProvider :=
  { get_last_block_number := 200,
    get_block_timestamp := fun block_number => block_number + 7,
    get_transactions_to_address := fun address block_number =>
      if address = "0xAAA" ∧ block_number = 100 then [txTransfer] else [] }

/-- A chain with no transactions at all. -/
def providerEmpty : EthereumStateProvider :=
  { get_last_block_number := 200,
    get_block_timestamp := fun block_number => block_number + 7,
    get_transactions_to_address := fun _ _ => [] }

/-- Crawler over `providerA` whose ABI decodes the `transfer` payload. -/
def crawlerA : FunctionCallCrawler :=
  { ethereum_state_provider := providerA,
    contract_addresses := ["0xAAA"],
    decode_function_input := fun d =>
      if d = "0xa9059cbb" then
        some ("transfer", [("to", "0xBBB"), ("amount", "5")])
      else none }

/-- Crawler over `providerA` whose ABI matches no selector: every payload
raises `DecodeError`. -/
def crawlerBad : FunctionCallCrawler :=
  { ethereum_state_provider := providerA,
    contract_addresses := ["0xAAA"],
    decode_function_input := fun _ => none }

/-- Crawler over the empty chain. -/
def crawlerEmpty : FunctionCallCrawler :=
  { ethereum_state_provider := providerEmpty,
    contract_addresses := ["0xAAA"],
    decode_function_input := fun d =>
      if d = "0xa9059cbb" then
        some ("transfer", [("to", "0xBBB"), ("amount", "5")])
      else none }

/-- A fresh store (nonexistent backing file, default batch size). -/
def freshStore : PickleFileState × Option StoreState :=
  PickleFileState.init none "state.pickle"

/-- A sample call record in block `n`. -/
def sampleCall (n : Int) : ContractFunctionCall :=
  { block_number := n, block_timestamp := 7 * n, transaction_hash := "0xh",
    contract_address := "0xAAA", caller_address := "0xBBB",
    function_name := "transfer", function_args := [("to", "0xBBB")] }

/-! ### Basic lemmas about `register_call` and its folds -/

theorem register_call_fst_state (s : PickleFileState) (f : Option StoreState)
    (call : ContractFunctionCall) :
    ((s.register_call f call).1).state =
      { last_crawled_block := call.block_number,
        calls := s.state.calls ++ [call] } := by
  simp only [PickleFileState.register_call, PickleFileState.flush]
  split <;> rfl

theorem register_call_fst_batch (s : PickleFileState) (f : Option StoreState)
    (call : ContractFunctionCall) :
    ((s.register_call f call).1).batch_size = s.batch_size := by
  simp only [PickleFileState.register_call, PickleFileState.flush]
  split <;> rfl

theorem register_call_fst_cache (s : PickleFileState) (f : Option StoreState)
    (call : ContractFunctionCall) :
    ((s.register_call f call).1).cache_size =
      if s.cache_size + 1 = s.batch_size then 0 else s.cache_size + 1 := by
  simp only [PickleFileState.register_call, PickleFileState.flush]
  split <;> rfl

theorem register_call_count (s : PickleFileState) (f : Option StoreState)
    (call : ContractFunctionCall) :
    (s.register_call f call).2.2 =
      if s.cache_size + 1 = s.batch_size then 1 else 0 := by
  simp only [PickleFileState.register_call, PickleFileState.flush]
  split <;> rfl

theorem registerAll_cons (s : PickleFileState) (f : Option StoreState)
    (call : ContractFunctionCall) (rest : List ContractFunctionCall) :
    registerAll s f (call :: rest) =
      ((registerAll (s.register_call f call).1 (s.register_call f call).2.1
          rest).1,
       (registerAll (s.register_call f call).1 (s.register_call f call).2.1
          rest).2.1,
       (s.register_call f call).2.2 +
         (registerAll (s.register_call f call).1 (s.register_call f call).2.1
            rest).2.2) := rfl

theorem registerAll_calls (calls : List ContractFunctionCall) :
    ∀ (s : PickleFileState) (f : Option StoreState),
      (registerAll s f calls).1.state.calls = s.state.calls ++ calls := by
  induction calls with
  | nil => intro s f; simp [registerAll]
  | cons call rest ih =>
    intro s f
    simp only [registerAll]
    rw [ih, register_call_fst_state]
    simp

theorem registerAll_cursor (calls : List ContractFunctionCall) :
    ∀ (s : PickleFileState) (f : Option StoreState),
      (registerAll s f calls).1.state.last_crawled_block =
        (calls.map ContractFunctionCall.block_number).getLastD
          s.state.last_crawled_block := by
  induction calls with
  | nil => intro s f; simp [registerAll]
  | cons call rest ih =>
    intro s f
    simp only [registerAll, List.map_cons, List.getLastD_cons]
    rw [ih, register_call_fst_state]

theorem registerAll_batch (calls : List ContractFunctionCall) :
    ∀ (s : PickleFileState) (f : Option StoreState),
      (registerAll s f calls).1.batch_size = s.batch_size := by
  induction calls with
  | nil => intro s f; rfl
  | cons call rest ih =>
    intro s f
    simp only [registerAll]
    rw [ih, register_call_fst_batch]

theorem cursorTrace_eq (calls : List ContractFunctionCall) :
    ∀ (s : PickleFileState) (f : Option StoreState),
      cursorTrace s f calls = calls.map ContractFunctionCall.block_number := by
  induction calls with
  | nil => intro s f; rfl
  | cons call rest ih =>
    intro s f
    simp only [cursorTrace, List.map_cons]
    rw [ih, register_call_fst_state]

theorem registerAll_append (l1 l2 : List ContractFunctionCall) :
    ∀ (s : PickleFileState) (f : Option StoreState),
      registerAll s f (l1 ++ l2) =
        ((registerAll (registerAll s f l1).1 (registerAll s f l1).2.1 l2).1,
         (registerAll (registerAll s f l1).1 (registerAll s f l1).2.1 l2).2.1,
         (registerAll s f l1).2.2 +
           (registerAll (registerAll s f l1).1 (registerAll s f l1).2.1
             l2).2.2) := by
  induction l1 with
  | nil => intro s f; simp [registerAll]
  | cons call rest ih =>
    intro s f
    simp only [List.cons_append, registerAll, List.append_eq]
    rw [ih]
    simp [Nat.add_assoc]

/-! ### Characterization of the crawl loops -/

theorem runTxs_append (c : FunctionCallCrawler) (l1 l2 : List Transaction) :
    c.runTxs (l1 ++ l2) =
      if (c.runTxs l1).2 then c.runTxs l1
      else ((c.runTxs l1).1 ++ (c.runTxs l2).1, (c.runTxs l2).2) := by
  induction l1 with
  | nil => simp [FunctionCallCrawler.runTxs]
  | cons tx rest ih =>
    cases h : c.decodedCall tx with
    | none => simp [FunctionCallCrawler.runTxs, h]
    | some call =>
      simp only [List.cons_append, FunctionCallCrawler.runTxs, h,
        List.append_eq]
      rw [ih]
      cases ht : (c.runTxs rest).2 <;> simp [ht]

theorem runTxs_raised_length (c : FunctionCallCrawler) (l : List Transaction) :
    (c.runTxs l).2 = true → (c.runTxs l).1.length < l.length := by
  induction l with
  | nil => intro h; simp [FunctionCallCrawler.runTxs] at h
  | cons tx rest ih =>
    cases hd : c.decodedCall tx with
    | none => intro _; simp [FunctionCallCrawler.runTxs, hd]
    | some call =>
      intro h
      simp only [FunctionCallCrawler.runTxs, hd] at h ⊢
      simp only [List.length_cons]
      have := ih h
      omega

theorem runTxs_ok_eq (c : FunctionCallCrawler) (l : List Transaction) :
    (c.runTxs l).2 = false → (c.runTxs l).1 = l.filterMap c.decodedCall := by
  induction l with
  | nil => intro _; rfl
  | cons tx rest ih =>
    cases hd : c.decodedCall tx with
    | none => intro h; simp [FunctionCallCrawler.runTxs, hd] at h
    | some call =>
      intro h
      simp only [FunctionCallCrawler.runTxs, hd] at h ⊢
      simp only [List.filterMap_cons, hd]
      rw [ih h]

theorem processTxList_eq (c : FunctionCallCrawler) (txs : List Transaction) :
    ∀ (s : PickleFileState) (f : Option StoreState),
      c.processTxList txs s f =
        ((registerAll s f (c.runTxs txs).1).1,
         (registerAll s f (c.runTxs txs).1).2.1,
         (c.runTxs txs).2) := by
  induction txs with
  | nil => intro s f; rfl
  | cons tx rest ih =>
    intro s f
    simp only [FunctionCallCrawler.processTxList,
      FunctionCallCrawler.process_transaction, FunctionCallCrawler.runTxs]
    cases hd : c.decodedCall tx with
    | none => simp [registerAll]
    | some call =>
      simp only
      rw [ih]
      simp [registerAll]

theorem processTxList_append (c : FunctionCallCrawler)
    (l1 l2 : List Transaction) :
    ∀ (s : PickleFileState) (f : Option StoreState),
      c.processTxList (l1 ++ l2) s f =
        (if (c.processTxList l1 s f).2.2 then c.processTxList l1 s f
         else c.processTxList l2 (c.processTxList l1 s f).1
           (c.processTxList l1 s f).2.1) := by
  induction l1 with
  | nil => intro s f; simp [FunctionCallCrawler.processTxList]
  | cons tx rest ih =>
    intro s f
    simp only [List.cons_append, FunctionCallCrawler.processTxList,
      List.append_eq]
    cases hr : (c.process_transaction s f tx).2.2 with
    | true => simp [hr]
    | false =>
      simp only [hr, if_false, Bool.false_eq_true]
      rw [ih]

theorem processAddresses_eq (c : FunctionCallCrawler)
    (addresses : List String) (block_number : Int) :
    ∀ (s : PickleFileState) (f : Option StoreState),
      c.processAddresses addresses block_number s f =
        c.processTxList
          (addresses.flatMap fun address =>
            c.ethereum_state_provider.get_transactions_to_address address
              block_number) s f := by
  induction addresses with
  | nil => intro s f; rfl
  | cons address rest ih =>
    intro s f
    simp only [FunctionCallCrawler.processAddresses, List.flatMap_cons]
    rw [processTxList_append, ih]
    cases hr :
      (c.processTxList
        (c.ethereum_state_provider.get_transactions_to_address address
          block_number) s f).2.2 with
    | true => simp only [hr, if_true]; rw [← hr]
    | false => simp [hr]

theorem crawlBlocks_eq (c : FunctionCallCrawler) (blocks : List Int) :
    ∀ (s : PickleFileState) (f : Option StoreState),
      c.crawlBlocks blocks s f =
        c.processTxList (blocks.flatMap c.blockTransactions) s f := by
  induction blocks with
  | nil => intro s f; rfl
  | cons b rest ih =>
    intro s f
    simp only [FunctionCallCrawler.crawlBlocks, List.flatMap_cons,
      FunctionCallCrawler.blockTransactions]
    rw [processTxList_append, processAddresses_eq, ih]
    cases hr :
      (c.processTxList
        (c.contract_addresses.flatMap fun address =>
          c.ethereum_state_provider.get_transactions_to_address address b)
        s f).2.2 with
    | true => simp only [hr, if_true]; rw [← hr]
    | false => simp [hr]

theorem crawl_run (c : FunctionCallCrawler) (s : PickleFileState)
    (f : Option StoreState) (a b : Int) (fl : Bool) :
    c.crawl s f a b fl =
      (if (c.runTxs (c.rangeTransactions a b)).2 then
        ((registerAll s f (c.runTxs (c.rangeTransactions a b)).1).1,
         (registerAll s f (c.runTxs (c.rangeTransactions a b)).1).2.1, true)
       else if fl then
        (((registerAll s f (c.runTxs (c.rangeTransactions a b)).1).1.flush
            (registerAll s f (c.runTxs (c.rangeTransactions a b)).1).2.1).1,
         ((registerAll s f (c.runTxs (c.rangeTransactions a b)).1).1.flush
            (registerAll s f (c.runTxs (c.rangeTransactions a b)).1).2.1).2,
         false)
       else
        ((registerAll s f (c.runTxs (c.rangeTransactions a b)).1).1,
         (registerAll s f (c.runTxs (c.rangeTransactions a b)).1).2.1,
         false)) := by
  simp only [FunctionCallCrawler.crawl, crawlBlocks_eq, processTxList_eq,
    FunctionCallCrawler.rangeTransactions]

/-! ### Block range arithmetic -/

theorem blockRange_append (a b c : Int) (h1 : a ≤ b + 1) (h2 : b ≤ c) :
    blockRange a c = blockRange a b ++ blockRange (b + 1) c := by
  unfold blockRange
  have hn1 : (0 : Int) ≤ b + 1 - a := by omega
  have hn2 : (0 : Int) ≤ c - b := by omega
  have htn : (c + 1 - a).toNat = (b + 1 - a).toNat + (c - b).toNat := by
    rw [show c + 1 - a = (b + 1 - a) + (c - b) by ring, Int.toNat_add hn1 hn2]
  have harg : c + 1 - (b + 1) = c - b := by ring
  rw [htn, harg, List.range_add, List.map_append, List.map_map]
  congr 1
  apply List.map_congr_left
  intro x _
  simp only [Function.comp_apply]
  push_cast [Int.toNat_of_nonneg hn1]
  ring

theorem blockRange_length (a b : Int) :
    (blockRange a b).length = (b + 1 - a).toNat := by
  simp [blockRange]

theorem blockRange_getD (a b : Int) (i : Nat)
    (h : i < (blockRange a b).length) :
    (blockRange a b).getD i 0 = a + i := by
  rw [List.getD_eq_getElem _ _ h]
  simp [blockRange]

theorem rangeTransactions_append (c : FunctionCallCrawler) (a b d : Int)
    (h1 : a ≤ b + 1) (h2 : b ≤ d) :
    c.rangeTransactions a d =
      c.rangeTransactions a b ++ c.rangeTransactions (b + 1) d := by
  unfold FunctionCallCrawler.rangeTransactions
  rw [blockRange_append a b d h1 h2, List.flatMap_append]

/-! ### Auto-flush counting -/

theorem registerAll_flush_count_lt (calls : List ContractFunctionCall) :
    ∀ (s : PickleFileState) (f : Option StoreState),
      s.cache_size + calls.length < s.batch_size →
      (registerAll s f calls).2.2 = 0 ∧
      (registerAll s f calls).1.cache_size = s.cache_size + calls.length := by
  induction calls with
  | nil => intro s f _; exact ⟨rfl, rfl⟩
  | cons call rest ih =>
    intro s f h
    simp only [List.length_cons] at h
    have hne : ¬(s.cache_size + 1 = s.batch_size) := by omega
    have hc := register_call_fst_cache s f call
    rw [if_neg hne] at hc
    have hb := register_call_fst_batch s f call
    have hcount := register_call_count s f call
    rw [if_neg hne] at hcount
    have hrec := ih (s.register_call f call).1 (s.register_call f call).2.1
      (by rw [hc, hb]; omega)
    rw [registerAll_cons]
    dsimp only
    constructor
    · rw [hcount, hrec.1]
    · rw [hrec.2, hc]; simp [List.length_cons]; omega

theorem registerAll_flush_count_eq (calls : List ContractFunctionCall) :
    ∀ (s : PickleFileState) (f : Option StoreState),
      calls ≠ [] →
      s.cache_size + calls.length = s.batch_size →
      (registerAll s f calls).2.2 = 1 ∧
      (registerAll s f calls).1.cache_size = 0 := by
  induction calls with
  | nil => intro s f hne _; exact absurd rfl hne
  | cons call rest ih =>
    intro s f _ h
    simp only [List.length_cons] at h
    cases rest with
    | nil =>
      simp only [List.length_nil] at h
      have heq : s.cache_size + 1 = s.batch_size := by omega
      have hc := register_call_fst_cache s f call
      rw [if_pos heq] at hc
      have hcount := register_call_count s f call
      rw [if_pos heq] at hcount
      rw [registerAll_cons]
      dsimp only
      exact ⟨by rw [hcount]; simp [registerAll],
             by simp [registerAll, hc]⟩
    | cons call2 rest2 =>
      have hne : ¬(s.cache_size + 1 = s.batch_size) := by
        simp only [List.length_cons] at h; omega
      have hc := register_call_fst_cache s f call
      rw [if_neg hne] at hc
      have hb := register_call_fst_batch s f call
      have hcount := register_call_count s f call
      rw [if_neg hne] at hcount
      have hrec := ih (s.register_call f call).1 (s.register_call f call).2.1
        (by simp)
        (by rw [hc, hb]; simp only [List.length_cons] at h ⊢; omega)
      rw [registerAll_cons]
      dsimp only
      exact ⟨by rw [hcount, hrec.1], hrec.2⟩

/-! ### Claim theorems -/

/-- Claim C10: constructing a `PickleFileState` against a path that does not
exist immediately performs a durable write of the initial blob
`{last_crawled_block: -1, calls: []}` — before any `register_call` or
`flush` — and `get_last_crawled_block()` on the fresh store returns `-1`. -/
theorem c10_init_writes_initial_blob (p : String) (N : Nat) :
    PickleFileState.init none p N =
      ({ state := { last_crawled_block := -1, calls := [] },
         pickle_file := p, batch_size := N, cache_size := 0 },
       some { last_crawled_block := -1, calls := [] }) ∧
    (PickleFileState.init none p N).1.get_last_crawled_block = -1 := by
  exact ⟨rfl, rfl⟩

/-- Claim C7: reconstructing a `PickleFileState` against the backing file
written by a flush reproduces the flushed store's `get_last_crawled_block()`
and calls list. -/
theorem c7_store_reload (s : PickleFileState) (f : Option StoreState)
    (p : String) (N : Nat) :
    (PickleFileState.init (s.flush f).2 p N).1.get_last_crawled_block =
      (s.flush f).1.get_last_crawled_block ∧
    (PickleFileState.init (s.flush f).2 p N).1.state.calls =
      (s.flush f).1.state.calls := by
  exact ⟨rfl, rfl⟩

/-- Claim C5: a failed durable write inside `flush()` leaves the store's
in-memory state — calls list, cursor, and pending-call count — exactly as
before, and a retried successful flush persists every accumulated call. -/
theorem c5_failed_flush_preserves_state (s : PickleFileState)
    (f : Option StoreState) :
    (s.flushAttempt f false).2.2 = false ∧
    (s.flushAttempt f false).1 = s ∧
    (s.flushAttempt f false).2.1 = f ∧
    ((s.flushAttempt f false).1.flushAttempt (s.flushAttempt f false).2.1
        true).2.1 = some s.state ∧
    ((s.flushAttempt f false).1.flushAttempt (s.flushAttempt f false).2.1
        true).1.state.calls = s.state.calls := by
  exact ⟨rfl, rfl, rfl, rfl, rfl⟩

/-- Claim C3: for a sequence of `register_call` invocations whose block
numbers are non-decreasing, each call is appended and the cursor set to
exactly its block number, the successive cursor values are non-decreasing,
and every registered call's block number is bounded by every cursor value
recorded at or after its append. -/
theorem c3_cursor_monotone (s : PickleFileState) (f : Option StoreState)
    (calls : List ContractFunctionCall)
    (h : ∀ i j : Nat, i ≤ j → j < calls.length →
      (calls.getD i default).block_number ≤
        (calls.getD j default).block_number) :
    (registerAll s f calls).1.state.calls = s.state.calls ++ calls ∧
    cursorTrace s f calls = calls.map ContractFunctionCall.block_number ∧
    (∀ i j : Nat, i ≤ j → j < calls.length →
      (cursorTrace s f calls).getD i 0 ≤ (cursorTrace s f calls).getD j 0) ∧
    (∀ i j : Nat, i ≤ j → j < calls.length →
      (calls.getD i default).block_number ≤
        (cursorTrace s f calls).getD j 0) := by
  refine ⟨registerAll_calls calls s f, cursorTrace_eq calls s f, ?_, ?_⟩
  · intro i j hij hj
    have hi : i < calls.length := Nat.lt_of_le_of_lt hij hj
    rw [cursorTrace_eq]
    have hmi : i < (calls.map ContractFunctionCall.block_number).length := by
      simpa using hi
    have hmj : j < (calls.map ContractFunctionCall.block_number).length := by
      simpa using hj
    rw [List.getD_eq_getElem _ _ hmi, List.getD_eq_getElem _ _ hmj]
    simp only [List.getElem_map]
    have hx := h i j hij hj
    rw [List.getD_eq_getElem _ _ hi, List.getD_eq_getElem _ _ hj] at hx
    exact hx
  · intro i j hij hj
    have hi : i < calls.length := Nat.lt_of_le_of_lt hij hj
    rw [cursorTrace_eq]
    have hmj : j < (calls.map ContractFunctionCall.block_number).length := by
      simpa using hj
    rw [List.getD_eq_getElem _ _ hmj]
    simp only [List.getElem_map]
    have hx := h i j hij hj
    rw [List.getD_eq_getElem _ _ hi, List.getD_eq_getElem _ _ hj] at hx
    rw [List.getD_eq_getElem _ _ hi]
    exact hx

/-- Witness for C3 at a concrete two-call non-decreasing sequence. -/
theorem c3_cursor_monotone_witness :
    (registerAll freshStore.1 freshStore.2
        [sampleCall 1, sampleCall 2]).1.state.calls =
      freshStore.1.state.calls ++ [sampleCall 1, sampleCall 2] ∧
    cursorTrace freshStore.1 freshStore.2 [sampleCall 1, sampleCall 2] =
      ([sampleCall 1, sampleCall 2]).map ContractFunctionCall.block_number ∧
    (∀ i j : Nat, i ≤ j → j < ([sampleCall 1, sampleCall 2]).length →
      (cursorTrace freshStore.1 freshStore.2
          [sampleCall 1, sampleCall 2]).getD i 0 ≤
        (cursorTrace freshStore.1 freshStore.2
          [sampleCall 1, sampleCall 2]).getD j 0) ∧
    (∀ i j : Nat, i ≤ j → j < ([sampleCall 1, sampleCall 2]).length →
      (([sampleCall 1, sampleCall 2]).getD i default).block_number ≤
        (cursorTrace freshStore.1 freshStore.2
          [sampleCall 1, sampleCall 2]).getD j 0) :=
  c3_cursor_monotone freshStore.1 freshStore.2 [sampleCall 1, sampleCall 2]
    (by
      intro i j hij hj
      simp only [List.length_cons, List.length_nil] at hj
      interval_cases j <;> interval_cases i <;> decide)

/-- Claim C4: for a store with empty cache (freshly constructed or just
flushed) and batch size `N ≥ 1`, registering exactly `N` calls triggers
exactly one internal flush, and registering `N - 1` calls triggers zero. -/
theorem c4_auto_flush_batch (s : PickleFileState) (f : Option StoreState)
    (hN : 1 ≤ s.batch_size) (h0 : s.cache_size = 0) :
    (∀ calls : List ContractFunctionCall, calls.length = s.batch_size →
      (registerAll s f calls).2.2 = 1) ∧
    (∀ calls : List ContractFunctionCall, calls.length = s.batch_size - 1 →
      (registerAll s f calls).2.2 = 0) := by
  constructor
  · intro calls hlen
    have hne : calls ≠ [] := by
      intro hnil
      rw [hnil] at hlen
      simp only [List.length_nil] at hlen
      omega
    exact (registerAll_flush_count_eq calls s f hne (by omega)).1
  · intro calls hlen
    exact (registerAll_flush_count_lt calls s f (by omega)).1

/-- Witness for C4 with batch size 3. -/
theorem c4_auto_flush_batch_witness :
    (∀ calls : List ContractFunctionCall,
      calls.length = (PickleFileState.init none "w" 3).1.batch_size →
      (registerAll (PickleFileState.init none "w" 3).1
        (PickleFileState.init none "w" 3).2 calls).2.2 = 1) ∧
    (∀ calls : List ContractFunctionCall,
      calls.length = (PickleFileState.init none "w" 3).1.batch_size - 1 →
      (registerAll (PickleFileState.init none "w" 3).1
        (PickleFileState.init none "w" 3).2 calls).2.2 = 0) :=
  c4_auto_flush_batch (PickleFileState.init none "w" 3).1
    (PickleFileState.init none "w" 3).2 (by decide) (by decide)

/-- Claim C1 counterexample: with an interface description matching no
selector and a block holding one transaction to the watched address, the
decode failure DOES propagate out of `crawl` (`raised = true`), refuting the
claim that the scan continues; no call record is produced. -/
theorem c1_counterexample :
    (crawlerBad.crawl freshStore.1 freshStore.2 100 100 false).2.2 = true ∧
    (crawlerBad.crawl freshStore.1 freshStore.2 100 100
      false).1.state.calls = [] := by
  exact ⟨rfl, rfl⟩

/-- Claim C1 (amended): a transaction whose payload cannot be decoded
produces no `ContractFunctionCall`, but the `DecodeError` propagates out of
`crawl` and aborts the scan of the remaining transactions, addresses and
blocks; only the calls decoded before the failure are registered (strictly
fewer records than visited transactions), and the final flush is skipped. -/
theorem c1_decode_error_propagates (c : FunctionCallCrawler)
    (s : PickleFileState) (f : Option StoreState) (a b : Int) (fl : Bool)
    (h : (c.runTxs (c.rangeTransactions a b)).2 = true) :
    (c.crawl s f a b fl).2.2 = true ∧
    (c.crawl s f a b fl).1.state.calls =
      s.state.calls ++ (c.runTxs (c.rangeTransactions a b)).1 ∧
    (c.runTxs (c.rangeTransactions a b)).1.length <
      (c.rangeTransactions a b).length := by
  rw [crawl_run]
  simp only [h, if_true]
  exact ⟨trivial, registerAll_calls _ s f, runTxs_raised_length _ _ h⟩

/-- Witness for the amended C1 on the concrete undecodable chain. -/
theorem c1_decode_error_propagates_witness :
    (crawlerBad.crawl freshStore.1 freshStore.2 100 100 true).2.2 = true ∧
    (crawlerBad.crawl freshStore.1 freshStore.2 100 100
        true).1.state.calls =
      freshStore.1.state.calls ++
        (crawlerBad.runTxs (crawlerBad.rangeTransactions 100 100)).1 ∧
    (crawlerBad.runTxs (crawlerBad.rangeTransactions 100 100)).1.length <
      (crawlerBad.rangeTransactions 100 100).length :=
  c1_decode_error_propagates crawlerBad freshStore.1 freshStore.2 100 100
    true (by decide)

/-- Claim C2 counterexample: over the range [0, 0] on a chain with no
transactions, every matching transaction (vacuously) decodes, yet after
`crawl(0, 0, flush_state=true)` the cursor is `-1`, not the range end `0`. -/
theorem c2_counterexample :
    (crawlerEmpty.crawl freshStore.1 freshStore.2 0 0 true).2.2 = false ∧
    (crawlerEmpty.crawl freshStore.1 freshStore.2 0 0
      true).1.get_last_crawled_block = -1 ∧
    ¬((crawlerEmpty.crawl freshStore.1 freshStore.2 0 0
      true).1.get_last_crawled_block = 0) := by
  refine ⟨rfl, rfl, ?_⟩
  decide

/-- Claim C2 (amended): for a fresh store and a range whose visited
transactions all decode, `crawl(a, b, flush_state=true)` raises nothing, the
persisted call set equals exactly the decoded calls of the transactions the
reader returns for the watched addresses over [a, b] (in visit order), the
final blob on disk is the final in-memory state, and `last_crawled_block()`
equals the block number of the last registered call — hence `b` whenever
block `b` contributed a call — or stays `-1` when no call was registered. -/
theorem c2_crawl_flush_result (c : FunctionCallCrawler)
    (s : PickleFileState) (f : Option StoreState) (a b : Int)
    (hcalls : s.state.calls = [])
    (hcur : s.state.last_crawled_block = -1)
    (h : (c.runTxs (c.rangeTransactions a b)).2 = false) :
    (c.crawl s f a b true).2.2 = false ∧
    (c.crawl s f a b true).1.state.calls =
      (c.rangeTransactions a b).filterMap c.decodedCall ∧
    (c.crawl s f a b true).2.1 = some (c.crawl s f a b true).1.state ∧
    (c.crawl s f a b true).1.get_last_crawled_block =
      (((c.rangeTransactions a b).filterMap c.decodedCall).map
        ContractFunctionCall.block_number).getLastD (-1) := by
  have hD := runTxs_ok_eq c (c.rangeTransactions a b) h
  rw [crawl_run]
  simp only [h, Bool.false_eq_true, if_false, if_true, PickleFileState.flush]
  refine ⟨trivial, ?_, trivial, ?_⟩
  · rw [← hD, registerAll_calls, hcalls]
    rfl
  · simp only [PickleFileState.get_last_crawled_block]
    rw [← hD, registerAll_cursor, hcur]

/-- Witness for the amended C2 on the concrete one-transaction chain. -/
theorem c2_crawl_flush_result_witness :
    (crawlerA.crawl freshStore.1 freshStore.2 100 100 true).2.2 = false ∧
    (crawlerA.crawl freshStore.1 freshStore.2 100 100 true).1.state.calls =
      (crawlerA.rangeTransactions 100 100).filterMap crawlerA.decodedCall ∧
    (crawlerA.crawl freshStore.1 freshStore.2 100 100 true).2.1 =
      some (crawlerA.crawl freshStore.1 freshStore.2 100 100 true).1.state ∧
    (crawlerA.crawl freshStore.1 freshStore.2 100 100
        true).1.get_last_crawled_block =
      (((crawlerA.rangeTransactions 100 100).filterMap
          crawlerA.decodedCall).map
        ContractFunctionCall.block_number).getLastD (-1) :=
  c2_crawl_flush_result crawlerA freshStore.1 freshStore.2 100 100 rfl rfl
    (by decide)

/-- Claim C6: crawling [a, b] and then [b+1, d] (with a final flush) is the
same — same store, same cursor, same call list, same persisted blob — as
crawling [a, d] directly with a final flush; when the first crawl raises,
both runs stop identically at the raise. -/
theorem c6_resumption (c : FunctionCallCrawler) (s : PickleFileState)
    (f : Option StoreState) (a b d : Int) (h1 : a ≤ b) (h2 : b < d) :
    (if (c.crawl s f a b false).2.2 then c.crawl s f a b false
     else c.crawl (c.crawl s f a b false).1 (c.crawl s f a b false).2.1
       (b + 1) d true) = c.crawl s f a d true := by
  simp only [crawl_run]
  rw [rangeTransactions_append c a b d (by omega) (by omega), runTxs_append]
  cases hr1 : (c.runTxs (c.rangeTransactions a b)).2 with
  | true => simp [hr1]
  | false =>
    simp only [hr1, Bool.false_eq_true, if_false, if_true]
    cases hr2 : (c.runTxs (c.rangeTransactions (b + 1) d)).2 with
    | true => simp [hr2, registerAll_append]
    | false => simp [hr2, registerAll_append]

/-- Witness for C6 at concrete bounds 99 ≤ 100 < 101. -/
theorem c6_resumption_witness :
    (if (crawlerA.crawl freshStore.1 freshStore.2 99 100 false).2.2 then
      crawlerA.crawl freshStore.1 freshStore.2 99 100 false
     else
      crawlerA.crawl
        (crawlerA.crawl freshStore.1 freshStore.2 99 100 false).1
        (crawlerA.crawl freshStore.1 freshStore.2 99 100 false).2.1
        (100 + 1) 101 true) =
      crawlerA.crawl freshStore.1 freshStore.2 99 101 true :=
  c6_resumption crawlerA freshStore.1 freshStore.2 99 100 101 (by decide)
    (by decide)

/-- Claim C8: re-crawling the same range appends a second copy of the same
records — the call list after the second crawl extends the first list by
exactly the records the first crawl added, with no de-duplication. -/
theorem c8_recrawl_appends_duplicates (c : FunctionCallCrawler)
    (s : PickleFileState) (f : Option StoreState) (a b : Int) (fl : Bool)
    (h : (c.crawl s f a b fl).2.2 = false) :
    (c.crawl (c.crawl s f a b fl).1 (c.crawl s f a b fl).2.1 a b
      fl).2.2 = false ∧
    (c.crawl (c.crawl s f a b fl).1 (c.crawl s f a b fl).2.1 a b
      fl).1.state.calls =
      (c.crawl s f a b fl).1.state.calls ++
        ((c.crawl s f a b fl).1.state.calls.drop s.state.calls.length) := by
  have hr : (c.runTxs (c.rangeTransactions a b)).2 = false := by
    rcases hx : (c.runTxs (c.rangeTransactions a b)).2 with _ | _
    · rfl
    · rw [crawl_run] at h
      simp [hx] at h
  have hcalls1 : (c.crawl s f a b fl).1.state.calls =
      s.state.calls ++ (c.runTxs (c.rangeTransactions a b)).1 := by
    rw [crawl_run]
    cases fl <;>
      simp [hr, PickleFileState.flush, registerAll_calls]
  have hdrop : ((c.crawl s f a b fl).1.state.calls.drop
      s.state.calls.length) = (c.runTxs (c.rangeTransactions a b)).1 := by
    rw [hcalls1, List.drop_left]
  constructor
  · rw [crawl_run]
    cases fl <;> simp [hr]
  · rw [hdrop]
    rw [crawl_run]
    cases fl <;>
      simp [hr, PickleFileState.flush, registerAll_calls, hcalls1]

/-- Witness for C8 on the concrete one-transaction chain. -/
theorem c8_recrawl_appends_duplicates_witness :
    (crawlerA.crawl (crawlerA.crawl freshStore.1 freshStore.2 100 100 true).1
      (crawlerA.crawl freshStore.1 freshStore.2 100 100 true).2.1 100 100
      true).2.2 = false ∧
    (crawlerA.crawl (crawlerA.crawl freshStore.1 freshStore.2 100 100 true).1
      (crawlerA.crawl freshStore.1 freshStore.2 100 100 true).2.1 100 100
      true).1.state.calls =
      (crawlerA.crawl freshStore.1 freshStore.2 100 100
        true).1.state.calls ++
        ((crawlerA.crawl freshStore.1 freshStore.2 100 100
          true).1.state.calls.drop freshStore.1.state.calls.length) :=
  c8_recrawl_appends_duplicates crawlerA freshStore.1 freshStore.2 100 100
    true (by decide)

theorem filterMap_flatMap_eq {α β γ : Type _} (l : List α) (g : α → List β)
    (p : β → Option γ) :
    (l.flatMap g).filterMap p = l.flatMap (fun x => (g x).filterMap p) := by
  induction l with
  | nil => rfl
  | cons x xs ih =>
    simp only [List.flatMap_cons, List.filterMap_append, ih]

theorem visitOrderCalls_eq (c : FunctionCallCrawler) (a b : Int) :
    c.visitOrderCalls a b =
      (c.rangeTransactions a b).filterMap c.decodedCall := by
  unfold FunctionCallCrawler.visitOrderCalls
    FunctionCallCrawler.rangeTransactions FunctionCallCrawler.blockTransactions
  rw [filterMap_flatMap_eq]
  congr 1
  funext bn
  rw [filterMap_flatMap_eq]

/-- Claim C9: when every visited transaction decodes, the calls registered by
`crawl(a, b, flush_state=true)` are appended in exactly the nested visit
order — blocks ascending over [a, b], watched addresses in configured list
order, transactions in reader order — and this is also the order persisted
in the flushed blob. -/
theorem c9_visit_order (c : FunctionCallCrawler) (s : PickleFileState)
    (f : Option StoreState) (a b : Int)
    (h : (c.runTxs (c.rangeTransactions a b)).2 = false) :
    (c.crawl s f a b true).2.2 = false ∧
    (c.crawl s f a b true).1.state.calls =
      s.state.calls ++ c.visitOrderCalls a b ∧
    (c.crawl s f a b true).2.1 = some (c.crawl s f a b true).1.state ∧
    (∀ i j : Nat, i < j → j < (blockRange a b).length →
      (blockRange a b).getD i 0 < (blockRange a b).getD j 0) := by
  have hD := runTxs_ok_eq c (c.rangeTransactions a b) h
  rw [crawl_run]
  simp only [h, Bool.false_eq_true, if_false, if_true, PickleFileState.flush]
  refine ⟨trivial, ?_, trivial, ?_⟩
  · rw [visitOrderCalls_eq, ← hD, registerAll_calls]
  · intro i j hij hj
    have hi : i < (blockRange a b).length := Nat.lt_trans hij hj
    rw [blockRange_getD a b i hi, blockRange_getD a b j hj]
    omega

/-- Witness for C9 on the concrete one-transaction chain over [99, 101]. -/
theorem c9_visit_order_witness :
    (crawlerA.crawl freshStore.1 freshStore.2 99 101 true).2.2 = false ∧
    (crawlerA.crawl freshStore.1 freshStore.2 99 101 true).1.state.calls =
      freshStore.1.state.calls ++ crawlerA.visitOrderCalls 99 101 ∧
    (crawlerA.crawl freshStore.1 freshStore.2 99 101 true).2.1 =
      some (crawlerA.crawl freshStore.1 freshStore.2 99 101 true).1.state ∧
    (∀ i j : Nat, i < j → j < (blockRange 99 101).length →
      (blockRange 99 101).getD i 0 < (blockRange 99 101).getD j 0) :=
  c9_visit_order crawlerA freshStore.1 freshStore.2 99 101 (by decide)
